import Mathlib

/-!
Verification of the mindcrank Monte Carlo simulator.

Shallow embedding of `src/main.go`: cards, decks, the per-trial draw loop
(`runSimulation`), the win check (`checkComboWin`), deck construction and
Fisher-Yates shuffling (`createDeck`, `shuffleDeck`), configuration
validation (`validateConfig`), the per-trial seed derivation (`simSeed`,
in wrap-around 64-bit arithmetic), and the scenario aggregation pipeline
(`runScenario` modelled as aggregation of per-trial results in an
arbitrary arrival order).

Go machine integers (`int`, `int64`) are embedded as `Int`; the only place
where overflow can occur, `simSeed`, works explicitly modulo `2 ^ 64`.
The Go pseudo-random generator handed to the shuffle is abstracted as a
function `js : Nat → Nat` supplying the swap index for each Fisher-Yates
step (the Go code calls `rng.Shuffle`, which picks `j` in `[0, i]` for
`i = n-1, …, 1`); every theorem below holds for every such stream, and
the seed-to-stream mapping of `math/rand` is kept abstract as a parameter
`rng : Int → Nat → Nat` where it is needed.
-/

/-- Card holds the information for a card in the game: `keyword` is
"land" or "non-land", `combo` marks a combo piece. -/
structure Card where
  keyword : String
  combo : Bool
deriving DecidableEq

/-- The zero-value land card appended by `createDeck` (`combo` defaults to false in Go). -/
def landCard : Card := ⟨"land", false⟩

/-- Non-combo non-land card appended by `createDeck`. -/
def plainCard : Card := ⟨"non-land", false⟩

/-- Combo-piece non-land card appended by `createDeck`. -/
def comboCard : Card := ⟨"non-land", true⟩

/-- Simulation holds the results of one trial run (Go struct `Simulation`). -/
structure Simulation where
  drawsToWinCon : Int
  openingHandWin : Bool
  openingHandLands : Int
deriving DecidableEq

/-- Results collates the simulations of a scenario run (Go struct `Results`).
The Go `float64` means are functions of the integer sums and the attempt
count only; they are embedded as exact rationals, which preserves every
equality relevant here. -/
structure Results where
  attempts : Int
  averageDrawsToWin : ℚ
  openingHandWins : Int
  averageOpeningHandWins : ℚ
  averageOpeningLands : ℚ
deriving DecidableEq

/-- Config holds the configuration for a simulation run (Go struct `Config`). -/
structure Config where
  deckSize : Int
  lands : Int
  combos : Int
  required : Int
  runs : Int
  seed : Int
deriving DecidableEq

/-- Loop body of Go `checkComboWin`: walk the hand keeping the running
combo count, returning true as soon as the incremented count equals
`required`. -/
def checkComboGo (hand : List Card) (count : Int) (required : Int) : Bool :=
  match hand with
  | [] => false
  | c :: rest =>
    if c.combo then
      if count + 1 = required then true
      else checkComboGo rest (count + 1) required
    else checkComboGo rest count required

/-- Go `checkComboWin`: checks if the required number of combo cards has
been drawn into hand. -/
def checkComboWin (hand : List Card) (required : Int) : Bool :=
  checkComboGo hand 0 required

/-- Number of combo pieces in a list of cards. -/
def countCombo (l : List Card) : Nat :=
  l.countP (fun c => c.combo)

/-- Number of lands among the first 7 cards, as counted by Go
`runSimulation` over the opening hand. -/
def openingLands (deck : List Card) : Int :=
  ((deck.take 7).countP (fun c => c.keyword == "land") : Nat)

/-- The draw loop of Go `runSimulation`: while the library is non-empty,
move its top card into hand, increment the draw counter, and re-check the
win condition. -/
def drawLoop (lib : List Card) (hand : List Card) (drawCount : Int)
    (required : Int) (lands : Int) : Simulation :=
  match lib with
  | [] => ⟨drawCount, false, lands⟩
  | drawn :: rest =>
    if checkComboWin (hand ++ [drawn]) required then
      ⟨drawCount + 1, false, lands⟩
    else
      drawLoop rest (hand ++ [drawn]) (drawCount + 1) required lands

/-- Go `runSimulation`: split off the 7-card opening hand, count its
lands, check the opening-hand win, then draw down the library. The Go
slice expression `deck[:7]` panics when the deck has fewer than 7 cards;
that error branch is embedded as `none`. -/
def runSimulation (deck : List Card) (required : Int) : Option Simulation :=
  if 7 ≤ deck.length then
    let hand := deck.take 7
    let lib := deck.drop 7
    let lands := openingLands deck
    if checkComboWin hand required then
      some ⟨0, true, lands⟩
    else
      some (drawLoop lib hand 0 required lands)
  else
    none

/-- One Fisher-Yates swap `deck[i], deck[j] = deck[j], deck[i]` from Go
`shuffleDeck`; out-of-range indices (which the Go loop never produces)
leave the list unchanged. -/
def listSwap (l : List Card) (i j : Nat) : List Card :=
  match l[i]?, l[j]? with
  | some a, some b => (l.set i b).set j a
  | _, _ => l

/-- The downward Fisher-Yates loop of Go `rand.Shuffle`: for
`i = n-1, …, 1`, swap position `i` with position `js i % (i+1)`
(`rng.Int63n(i+1)` returns a value in `[0, i]`, modelled by the abstract
stream `js` reduced into range). -/
def shuffleIter (js : Nat → Nat) : List Card → Nat → List Card
  | l, 0 => l
  | l, i + 1 => shuffleIter js (listSwap l (i + 1) (js (i + 1) % (i + 2))) i

/-- Go `shuffleDeck`: shuffles a slice of Cards and returns the shuffled
slice. -/
def shuffleDeck (deck : List Card) (js : Nat → Nat) : List Card :=
  shuffleIter js deck (deck.length - 1)

/-- Go `createDeck`: lands, then non-combo permanents, then combo pieces,
then shuffle. A Go loop `for i := 0; i < n; i++` runs `max n 0` times,
hence the `Int.toNat` on each count. -/
def createDeck (cfg : Config) (js : Nat → Nat) : List Card :=
  let numLands := cfg.lands
  let numNonLands := cfg.deckSize - numLands
  let numComboPieces := cfg.combos
  let deck :=
    List.replicate numLands.toNat landCard
      ++ List.replicate (numNonLands - numComboPieces).toNat plainCard
      ++ List.replicate numComboPieces.toNat comboCard
  shuffleDeck deck js

/-- Go `validateConfig`: the if-chain of rejection conditions, in source
order; `none` means the configuration is accepted. -/
def validateConfig (cfg : Config) : Option String :=
  if cfg.deckSize < 7 then some "deck size must be at least 7"
  else if cfg.lands < 0 then some "lands cannot be negative"
  else if cfg.combos < 0 then some "combos cannot be negative"
  else if cfg.required < 1 then some "required combo pieces must be at least 1"
  else if cfg.required > cfg.combos then
    some "required combo pieces cannot exceed total combo pieces"
  else if cfg.lands + cfg.combos > cfg.deckSize then
    some "lands + combos cannot exceed deck size"
  else if cfg.runs < 1 then some "runs must be at least 1"
  else none

/-- Reinterpret an unsigned 64-bit value as Go `int64`. -/
def toInt64 (x : Nat) : Int :=
  if x < 2 ^ 63 then (x : Int) else (x : Int) - 2 ^ 64

/-- Go conversion `uint64(v)` of an `int64` value: reduction modulo `2^64`. -/
def toUInt64n (v : Int) : Nat :=
  (v % (2 ^ 64 : Int)).toNat

/-- The two xor-shift-multiply steps and final xor-shift of `simSeed`,
in arithmetic modulo `2^64`. -/
def mix64 (x : Nat) : Nat :=
  let x1 := ((x ^^^ (x >>> 30)) * 0xbf58476d1ce4e5b9) % 2 ^ 64
  let x2 := ((x1 ^^^ (x1 >>> 27)) * 0x94d049bb133111eb) % 2 ^ 64
  x2 ^^^ (x2 >>> 31)

/-- Go `simSeed`: mix the base seed with the simulation index for
deterministic, distinct RNG streams. Faithful to
`uint64(baseSeed) + uint64(simIndex) + 0x9e3779b97f4a7c15` with
wrap-around, followed by `mix64`, reinterpreted as `int64`. -/
def simSeed (baseSeed : Int) (simIndex : Int) : Int :=
  toInt64 (mix64 ((toUInt64n baseSeed + toUInt64n simIndex + 0x9e3779b97f4a7c15) % 2 ^ 64))

/-- The seed derivation as the spec words it: start from
`base_seed + trial_index + 0x9e3779b97f4a7c15` computed in unsigned
64-bit arithmetic (wrap-around modulo `2^64`), then the splitmix-style
xor-shift-multiply steps. Stated from the spec for comparison with the
source-derived `simSeed`. -/
def specSimSeed (baseSeed : Int) (simIndex : Int) : Int :=
  toInt64 (mix64 ((baseSeed + simIndex + 0x9e3779b97f4a7c15) % (2 ^ 64 : Int)).toNat)

/-- One step of the aggregation loop in Go `runScenario`: bump the
attempt count and add the trial's draws, opening lands, and opening-hand
win flag into the running sums. State is
(attempts, drawSum, landSum, openingWinCount). -/
def aggStep (st : Int × Int × Int × Int) (sim : Simulation) : Int × Int × Int × Int :=
  (st.1 + 1,
   st.2.1 + sim.drawsToWinCon,
   st.2.2.1 + sim.openingHandLands,
   st.2.2.2 + (if sim.openingHandWin then 1 else 0))

/-- The post-loop derivation of Go `runScenario`: when at least one trial
was processed, fill in the means and the opening-hand win count;
otherwise leave the zero-value `Results`. -/
def finalizeResults (st : Int × Int × Int × Int) : Results :=
  if 0 < st.1 then
    { attempts := st.1
      averageDrawsToWin := (st.2.1 : ℚ) / (st.1 : ℚ)
      openingHandWins := st.2.2.2
      averageOpeningHandWins := (st.2.2.2 : ℚ) / (st.1 : ℚ)
      averageOpeningLands := (st.2.2.1 : ℚ) / (st.1 : ℚ) }
  else
    { attempts := st.1
      averageDrawsToWin := 0
      openingHandWins := 0
      averageOpeningHandWins := 0
      averageOpeningLands := 0 }

/-- The aggregation loop of Go `runScenario` over the stream of per-trial
results, in their arrival order. -/
def aggregate (sims : List Simulation) : Results :=
  finalizeResults (sims.foldl aggStep (0, 0, 0, 0))

/-- The work done for trial index `i` by a Go worker: derive the trial
seed with `simSeed`, build and shuffle the deck from the derived stream,
and run the simulation. `rng` abstracts `rand.New(rand.NewSource seed)`
as a pure seed-to-stream mapping. Under a valid configuration the deck
always has at least 7 cards, so the `getD` default is never used. -/
def trialSim (rng : Int → Nat → Nat) (cfg : Config) (i : Nat) : Simulation :=
  (runSimulation (createDeck cfg (rng (simSeed cfg.seed (i : Int)))) cfg.required).getD
    ⟨0, false, 0⟩

/-- Go `runScenario`, with the scheduling nondeterminism made explicit:
the workers jointly produce the per-trial results of indices
`0 … runs-1`, and the aggregation loop consumes them in some arrival
order `order`. A run with any worker count corresponds to some `order`
that is a permutation of `List.range cfg.runs.toNat`. -/
def runScenarioWith (rng : Int → Nat → Nat) (cfg : Config) (order : List Nat) : Results :=
  aggregate (order.map (trialSim rng cfg))

/-- Index (0-based) of the `r`-th combo piece of a deck in draw order;
equals the deck length when there is no such piece. Used to state the
exact-win-position part of the monotonicity property. -/
def comboIndex : List Card → Int → Nat
  | [], _ => 0
  | c :: rest, r =>
    if c.combo ∧ r = 1 then 0
    else 1 + comboIndex rest (if c.combo then r - 1 else r)

/-! ### Helper lemmas: the win check -/

theorem countCombo_cons (c : Card) (l : List Card) :
    countCombo (c :: l) = (if c.combo then 1 else 0) + countCombo l := by
  cases hc : c.combo <;> simp [countCombo, List.countP_cons, hc, Nat.add_comm]

theorem countCombo_append (l1 l2 : List Card) :
    countCombo (l1 ++ l2) = countCombo l1 + countCombo l2 := by
  simp [countCombo, List.countP_append]

theorem checkComboGo_iff (hand : List Card) (count required : Int) :
    checkComboGo hand count required = true ↔
      count < required ∧ required ≤ count + (countCombo hand : Int) := by
  induction hand generalizing count with
  | nil => simp [checkComboGo, countCombo]
  | cons c rest ih =>
    by_cases hc : c.combo <;> by_cases he : count + 1 = required <;>
      simp [checkComboGo, hc, he, ih, countCombo_cons] <;> omega

theorem checkComboWin_iff (hand : List Card) (required : Int) :
    checkComboWin hand required = true ↔
      0 < required ∧ required ≤ (countCombo hand : Int) := by
  unfold checkComboWin
  rw [checkComboGo_iff]
  omega

theorem checkComboWin_eq_false (hand : List Card) (required : Int)
    (h : required ≤ 0 ∨ (countCombo hand : Int) < required) :
    checkComboWin hand required = false := by
  rw [Bool.eq_false_iff]
  intro hw
  rw [checkComboWin_iff] at hw
  omega

theorem countCombo_nil : countCombo [] = 0 := rfl

/-! ### Helper lemmas: the draw loop -/

theorem drawLoop_bounds (lib : List Card) :
    ∀ hand d r lands, d ≤ (drawLoop lib hand d r lands).drawsToWinCon ∧
      (drawLoop lib hand d r lands).drawsToWinCon ≤ d + (lib.length : Int) := by
  induction lib with
  | nil => intro hand d r lands; simp [drawLoop]
  | cons c rest ih =>
    intro hand d r lands
    rw [drawLoop]
    split
    · constructor
      · show d ≤ d + 1
        omega
      · show d + 1 ≤ d + ((c :: rest).length : Int)
        simp only [List.length_cons]
        push_cast
        omega
    · have h := ih (hand ++ [c]) (d + 1) r lands
      simp only [List.length_cons]
      push_cast
      push_cast at h
      omega

theorem drawLoop_exhaust (lib : List Card) :
    ∀ hand d r lands, checkComboWin (hand ++ lib) r = false →
      drawLoop lib hand d r lands = ⟨d + (lib.length : Int), false, lands⟩ := by
  induction lib with
  | nil => intro hand d r lands h; simp [drawLoop]
  | cons c rest ih =>
    intro hand d r lands h
    have hfull : ¬(0 < r ∧ r ≤ (countCombo (hand ++ c :: rest) : Int)) := by
      rw [← checkComboWin_iff]
      simp [h]
    have h1 : countCombo (hand ++ [c]) ≤ countCombo (hand ++ c :: rest) := by
      rw [countCombo_append, countCombo_append, countCombo_cons, countCombo_cons, countCombo_nil]
      cases hcc : c.combo <;> simp [hcc]
    have hstep : checkComboWin (hand ++ [c]) r = false := by
      apply checkComboWin_eq_false
      omega
    rw [drawLoop, if_neg (by simp [hstep])]
    have hassoc : (hand ++ [c]) ++ rest = hand ++ c :: rest := by simp
    have h' : checkComboWin ((hand ++ [c]) ++ rest) r = false := by
      rw [hassoc]; exact h
    rw [ih (hand ++ [c]) (d + 1) r lands h']
    simp [Simulation.mk.injEq]
    push_cast
    ring

theorem drawLoop_win (lib : List Card) :
    ∀ hand d r lands, 0 < r → (countCombo hand : Int) < r →
      r ≤ (countCombo (hand ++ lib) : Int) →
      drawLoop lib hand d r lands =
        ⟨d + (comboIndex lib (r - (countCombo hand : Int)) : Int) + 1, false, lands⟩ := by
  induction lib with
  | nil =>
    intro hand d r lands h0 hlt hle
    exfalso
    rw [List.append_nil] at hle
    omega
  | cons c rest ih =>
    intro hand d r lands h0 hlt hle
    have hcc : countCombo (hand ++ [c]) = countCombo hand + (if c.combo then 1 else 0) := by
      rw [countCombo_append, countCombo_cons, countCombo_nil]
      simp
    have hassoc : (hand ++ [c]) ++ rest = hand ++ c :: rest := by simp
    have hle' : r ≤ (countCombo ((hand ++ [c]) ++ rest) : Int) := by rw [hassoc]; exact hle
    by_cases hc : c.combo
    · by_cases hr : r = (countCombo hand : Int) + 1
      · have hwin : checkComboWin (hand ++ [c]) r = true := by
          rw [checkComboWin_iff]
          refine ⟨h0, ?_⟩
          rw [hcc]
          simp [hc]
          push_cast
          omega
        rw [drawLoop, if_pos hwin]
        have hx : r - (countCombo hand : Int) = 1 := by omega
        have hidx : comboIndex (c :: rest) (r - (countCombo hand : Int)) = 0 := by
          simp [comboIndex, hc, hx]
        rw [hidx]
        simp
      · have hneq : checkComboWin (hand ++ [c]) r = false := by
          apply checkComboWin_eq_false
          right
          rw [hcc]
          simp [hc]
          push_cast
          omega
        rw [drawLoop, if_neg (by simp [hneq])]
        have hlt' : (countCombo (hand ++ [c]) : Int) < r := by
          rw [hcc]; simp [hc]; push_cast; omega
        rw [ih (hand ++ [c]) (d + 1) r lands h0 hlt' hle']
        have harg : r - (countCombo (hand ++ [c]) : Int) = r - (countCombo hand : Int) - 1 := by
          rw [hcc]; simp [hc]; push_cast; ring
        rw [harg]
        have hx : ¬(r - (countCombo hand : Int) = 1) := by omega
        have hidx : comboIndex (c :: rest) (r - (countCombo hand : Int)) =
            1 + comboIndex rest (r - (countCombo hand : Int) - 1) := by
          simp [comboIndex, hc, hx]
        rw [hidx]
        simp [Simulation.mk.injEq]
        push_cast
        ring
    · have hneq : checkComboWin (hand ++ [c]) r = false := by
        apply checkComboWin_eq_false
        right
        rw [hcc]
        simp [hc]
        push_cast
        omega
      rw [drawLoop, if_neg (by simp [hneq])]
      have hlt' : (countCombo (hand ++ [c]) : Int) < r := by
        rw [hcc]; simp [hc]; push_cast; omega
      rw [ih (hand ++ [c]) (d + 1) r lands h0 hlt' hle']
      have harg : r - (countCombo (hand ++ [c]) : Int) = r - (countCombo hand : Int) := by
        rw [hcc]; simp [hc]
      rw [harg]
      have hidx : comboIndex (c :: rest) (r - (countCombo hand : Int)) =
          1 + comboIndex rest (r - (countCombo hand : Int)) := by
        simp [comboIndex, hc]
      rw [hidx]
      simp [Simulation.mk.injEq]
      push_cast
      ring

/-! ### Helper lemmas: position of the r-th combo piece -/

theorem comboIndex_append_left (hand lib : List Card) :
    ∀ r : Int, 0 < r → r ≤ (countCombo hand : Int) →
      comboIndex (hand ++ lib) r = comboIndex hand r := by
  induction hand with
  | nil =>
    intro r h0 hle
    exfalso
    rw [countCombo_nil] at hle
    simp at hle
    omega
  | cons c hs ih =>
    intro r h0 hle
    rw [countCombo_cons] at hle
    rw [List.cons_append]
    by_cases hc : c.combo
    · by_cases hr : r = 1
      · simp [comboIndex, hc, hr]
      · have h2 : 0 < r - 1 := by omega
        have h3 : r - 1 ≤ (countCombo hs : Int) := by
          simp only [hc, if_true] at hle
          push_cast at hle
          omega
        simp [comboIndex, hc, hr, ih (r - 1) h2 h3]
    · have h3 : r ≤ (countCombo hs : Int) := by
        simp only [hc, if_false] at hle
        push_cast at hle
        omega
      simp [comboIndex, hc, ih r h0 h3]

theorem comboIndex_lt_length (l : List Card) :
    ∀ r : Int, 0 < r → r ≤ (countCombo l : Int) → comboIndex l r < l.length := by
  induction l with
  | nil =>
    intro r h0 hle
    exfalso
    rw [countCombo_nil] at hle
    simp at hle
    omega
  | cons c rest ih =>
    intro r h0 hle
    rw [countCombo_cons] at hle
    by_cases hc : c.combo
    · by_cases hr : r = 1
      · simp [comboIndex, hc, hr]
      · have h2 : 0 < r - 1 := by omega
        have h3 : r - 1 ≤ (countCombo rest : Int) := by
          simp only [hc, if_true] at hle
          push_cast at hle
          omega
        have := ih (r - 1) h2 h3
        simp [comboIndex, hc, hr]
        omega
    · have h3 : r ≤ (countCombo rest : Int) := by
        simp only [hc, if_false] at hle
        push_cast at hle
        omega
      have := ih r h0 h3
      simp [comboIndex, hc]
      omega

theorem comboIndex_append_right (hand lib : List Card) :
    ∀ r : Int, 0 < r → (countCombo hand : Int) < r →
      comboIndex (hand ++ lib) r = hand.length + comboIndex lib (r - (countCombo hand : Int)) := by
  induction hand with
  | nil =>
    intro r h0 hlt
    rw [countCombo_nil]
    simp
  | cons c hs ih =>
    intro r h0 hlt
    rw [countCombo_cons] at hlt
    rw [List.cons_append]
    by_cases hc : c.combo
    · have hr : ¬(r = 1) := by
        simp only [hc, if_true] at hlt
        push_cast at hlt
        have : (0 : Int) ≤ (countCombo hs : Int) := Int.natCast_nonneg _
        omega
      have hlt' : (countCombo hs : Int) < r - 1 := by
        simp only [hc, if_true] at hlt
        push_cast at hlt
        omega
      have harg : r - 1 - (countCombo hs : Int) = r - (countCombo (c :: hs) : Int) := by
        rw [countCombo_cons]
        simp [hc]
        push_cast
        ring
      rw [← harg]
      simp [comboIndex, hc, hr, ih (r - 1) (by omega) hlt']
      omega
    · have hlt' : (countCombo hs : Int) < r := by
        simp only [hc, if_false] at hlt
        push_cast at hlt
        omega
      have harg : r - (countCombo hs : Int) = r - (countCombo (c :: hs) : Int) := by
        rw [countCombo_cons]
        simp [hc]
      rw [← harg]
      simp [comboIndex, hc, ih r h0 hlt']
      omega

theorem comboIndex_mono (l : List Card) :
    ∀ r' r : Int, 0 < r' → r' ≤ r → comboIndex l r' ≤ comboIndex l r := by
  induction l with
  | nil => intro r' r _ _; simp [comboIndex]
  | cons c rest ih =>
    intro r' r h0 hle
    by_cases hc : c.combo
    · by_cases hr' : r' = 1
      · simp [comboIndex, hc, hr']
      · have hr : ¬(r = 1) := by omega
        have := ih (r' - 1) (r - 1) (by omega) (by omega)
        simp [comboIndex, hc, hr', hr]
        omega
    · have := ih r' r h0 hle
      simp [comboIndex, hc]
      omega

/-! ### Characterization of a full trial -/

theorem length_take7 (deck : List Card) (h7 : 7 ≤ deck.length) :
    (deck.take 7).length = 7 := by
  simp [List.length_take]
  omega

theorem countCombo_take_drop (deck : List Card) :
    countCombo (deck.take 7 ++ deck.drop 7) = countCombo deck := by
  rw [List.take_append_drop]

/-- Full characterization of a winning trial: when the deck holds at
least `r` combo pieces (`0 < r`), the trial ends exactly when the `r`-th
combo piece enters the hand: inside the opening hand (`draws = 0`,
opening-hand win) when its index is below 7, after `comboIndex - 6`
draws otherwise. -/
theorem runSimulation_char (deck : List Card) (r : Int) (h7 : 7 ≤ deck.length)
    (h0 : 0 < r) (hw : r ≤ (countCombo deck : Int)) :
    runSimulation deck r =
      some ⟨if comboIndex deck r < 7 then 0 else (comboIndex deck r : Int) - 6,
            decide (comboIndex deck r < 7), openingLands deck⟩ := by
  rw [runSimulation, if_pos h7]
  by_cases hop : checkComboWin (deck.take 7) r = true
  · rw [if_pos hop]
    have hcnt : r ≤ (countCombo (deck.take 7) : Int) := ((checkComboWin_iff _ _).mp hop).2
    have hidx : comboIndex deck r = comboIndex (deck.take 7) r := by
      conv_lhs => rw [← List.take_append_drop 7 deck]
      exact comboIndex_append_left _ _ r h0 hcnt
    have hlt : comboIndex deck r < 7 := by
      rw [hidx]
      have := comboIndex_lt_length (deck.take 7) r h0 hcnt
      rw [length_take7 deck h7] at this
      exact this
    simp [hlt]
  · rw [if_neg hop]
    have hcnt : (countCombo (deck.take 7) : Int) < r := by
      have := (checkComboWin_iff (deck.take 7) r).not.mp hop
      omega
    have hwin : r ≤ (countCombo (deck.take 7 ++ deck.drop 7) : Int) := by
      rw [countCombo_take_drop]; exact hw
    rw [drawLoop_win (deck.drop 7) (deck.take 7) 0 r (openingLands deck) h0 hcnt hwin]
    have hidx : comboIndex deck r =
        7 + comboIndex (deck.drop 7) (r - (countCombo (deck.take 7) : Int)) := by
      conv_lhs => rw [← List.take_append_drop 7 deck]
      rw [comboIndex_append_right _ _ r h0 hcnt, length_take7 deck h7]
    have hge : 7 ≤ comboIndex deck r := by omega
    have hif : ¬(comboIndex deck r < 7) := by omega
    simp only [hif, if_false, decide_eq_false hif]
    simp [Simulation.mk.injEq, hidx]
    push_cast
    ring

/-! ### Helper lemmas: the shuffle is a permutation -/

theorem get_cons_set_perm (l : List Card) :
    ∀ (k : Nat) (x : Card) (hk : k < l.length), (l[k] :: l.set k x).Perm (x :: l) := by
  induction l with
  | nil => intro k x hk; exact absurd hk (by simp)
  | cons y ys ih =>
    intro k x hk
    match k with
    | 0 => simpa using List.Perm.swap x y ys
    | m + 1 =>
      have hm : m < ys.length := by simpa using hk
      have h1 : (ys[m] :: y :: ys.set m x).Perm (y :: ys[m] :: ys.set m x) :=
        List.Perm.swap y (ys[m]) (ys.set m x)
      have h2 : (y :: ys[m] :: ys.set m x).Perm (y :: x :: ys) := (ih m x hm).cons y
      have h3 : (y :: x :: ys).Perm (x :: y :: ys) := List.Perm.swap x y ys
      simpa using (h1.trans h2).trans h3

theorem set_set_perm (l : List Card) :
    ∀ i j (hi : i < l.length) (hj : j < l.length), ((l.set i l[j]).set j l[i]).Perm l := by
  induction l with
  | nil => intro i j hi _; exact absurd hi (by simp)
  | cons y ys ih =>
    intro i j hi hj
    match i, j with
    | 0, 0 => simp
    | 0, m + 1 =>
      have hm : m < ys.length := by simpa using hj
      simpa using get_cons_set_perm ys m y hm
    | k + 1, 0 =>
      have hk : k < ys.length := by simpa using hi
      simpa using get_cons_set_perm ys k y hk
    | k + 1, m + 1 =>
      have hk : k < ys.length := by simpa using hi
      have hm : m < ys.length := by simpa using hj
      simpa using (ih k m hk hm).cons y

theorem listSwap_perm (l : List Card) (i j : Nat) : (listSwap l i j).Perm l := by
  unfold listSwap
  split
  · rename_i a b ha hb
    obtain ⟨hi, hai⟩ := List.getElem?_eq_some_iff.mp ha
    obtain ⟨hj, hbj⟩ := List.getElem?_eq_some_iff.mp hb
    rw [← hai, ← hbj]
    exact set_set_perm l i j hi hj
  · exact List.Perm.refl l

theorem shuffleIter_perm (js : Nat → Nat) :
    ∀ (i : Nat) (l : List Card), (shuffleIter js l i).Perm l := by
  intro i
  induction i with
  | zero => intro l; exact List.Perm.refl l
  | succ k ih =>
    intro l
    rw [shuffleIter]
    exact (ih _).trans (listSwap_perm l (k + 1) (js (k + 1) % (k + 2)))

theorem shuffleDeck_perm (deck : List Card) (js : Nat → Nat) :
    (shuffleDeck deck js).Perm deck :=
  shuffleIter_perm js (deck.length - 1) deck

/-! ### Helper lemmas: deck composition -/

theorem countP_replicate (p : Card → Bool) (n : Nat) (a : Card) :
    (List.replicate n a).countP p = if p a then n else 0 := by
  induction n with
  | zero => simp
  | succ k ih => rw [List.replicate_succ, List.countP_cons, ih]; split <;> simp

theorem createDeck_perm (cfg : Config) (js : Nat → Nat) :
    (createDeck cfg js).Perm
      (List.replicate cfg.lands.toNat landCard
        ++ List.replicate (cfg.deckSize - cfg.lands - cfg.combos).toNat plainCard
        ++ List.replicate cfg.combos.toNat comboCard) := by
  unfold createDeck
  exact shuffleDeck_perm _ js

theorem createDeck_length (cfg : Config) (js : Nat → Nat)
    (h0l : 0 ≤ cfg.lands) (h0c : 0 ≤ cfg.combos)
    (hsum : cfg.lands + cfg.combos ≤ cfg.deckSize) :
    ((createDeck cfg js).length : Int) = cfg.deckSize := by
  rw [(createDeck_perm cfg js).length_eq]
  simp [List.length_append, List.length_replicate]
  push_cast
  omega

/-! ### Helper lemmas: validation, aggregation, seed derivation -/

theorem validateConfig_none_iff (cfg : Config) :
    validateConfig cfg = none ↔
      (7 ≤ cfg.deckSize ∧ 0 ≤ cfg.lands ∧ 0 ≤ cfg.combos ∧ 1 ≤ cfg.required ∧
       cfg.required ≤ cfg.combos ∧ cfg.lands + cfg.combos ≤ cfg.deckSize ∧ 1 ≤ cfg.runs) := by
  unfold validateConfig
  split_ifs <;> simp <;> omega

theorem foldl_aggStep (l : List Simulation) :
    ∀ st : Int × Int × Int × Int,
      l.foldl aggStep st =
        (st.1 + l.length,
         st.2.1 + (l.map (fun s => s.drawsToWinCon)).sum,
         st.2.2.1 + (l.map (fun s => s.openingHandLands)).sum,
         st.2.2.2 + (l.map (fun s => if s.openingHandWin then (1 : Int) else 0)).sum) := by
  induction l with
  | nil => intro st; simp
  | cons s rest ih =>
    intro st
    rw [List.foldl_cons, ih]
    simp only [aggStep, List.map_cons, List.sum_cons, List.length_cons, Prod.mk.injEq]
    refine ⟨by push_cast; ring, by ring, by ring, by ring⟩

theorem aggregate_perm (l1 l2 : List Simulation) (h : l1.Perm l2) :
    aggregate l1 = aggregate l2 := by
  unfold aggregate
  rw [foldl_aggStep, foldl_aggStep, h.length_eq,
    (h.map (fun s => s.drawsToWinCon)).sum_eq,
    (h.map (fun s => s.openingHandLands)).sum_eq,
    (h.map (fun s => if s.openingHandWin then (1 : Int) else 0)).sum_eq]

set_option maxRecDepth 8000 in
theorem addWrap64_eq (b i : Int) :
    ((b % (2 ^ 64 : Int)).toNat + (i % (2 ^ 64 : Int)).toNat + 0x9e3779b97f4a7c15) % 2 ^ 64 =
      ((b + i + 0x9e3779b97f4a7c15) % (2 ^ 64 : Int)).toNat := by
  omega

theorem simSeed_eq_specSimSeed (b i : Int) : simSeed b i = specSimSeed b i := by
  unfold simSeed specSimSeed toUInt64n
  rw [addWrap64_eq]

/-! ### Claim theorems -/

/-- C3: for every deck of length at least 7 and every required number of
combo pieces at least 1, if the first 7 cards contain at least that many
combo pieces then `runSimulation` reports an opening-hand win with zero
draws. -/
theorem runSimulation_opening_hand_win (deck : List Card) (r : Int)
    (h7 : 7 ≤ deck.length) (h1 : 1 ≤ r)
    (hc : r ≤ (countCombo (deck.take 7) : Int)) :
    runSimulation deck r = some ⟨0, true, openingLands deck⟩ := by
  rw [runSimulation, if_pos h7,
    if_pos ((checkComboWin_iff (deck.take 7) r).mpr ⟨by omega, hc⟩)]

theorem runSimulation_opening_hand_win_witness :
    runSimulation
      [comboCard, landCard, plainCard, plainCard, plainCard, plainCard, plainCard, landCard] 1 =
      some ⟨0, true, 1⟩ := by
  have h := runSimulation_opening_hand_win
    [comboCard, landCard, plainCard, plainCard, plainCard, plainCard, plainCard, landCard] 1
    (by decide) (by decide) (by decide)
  rw [h]
  decide

/-- C5: with a deck of at least 7 cards, the draws-to-win value returned
by `runSimulation` is at least 0 and never exceeds the library size
`deck_size - 7`. -/
theorem runSimulation_exhaustion_bound (deck : List Card) (r : Int) (s : Simulation)
    (h7 : 7 ≤ deck.length) (hs : runSimulation deck r = some s) :
    0 ≤ s.drawsToWinCon ∧ s.drawsToWinCon ≤ (deck.length : Int) - 7 := by
  rw [runSimulation, if_pos h7] at hs
  by_cases hop : checkComboWin (deck.take 7) r = true
  · rw [if_pos hop, Option.some_inj] at hs
    rw [← hs]
    constructor
    · exact le_refl 0
    · show (0 : Int) ≤ (deck.length : Int) - 7
      omega
  · rw [if_neg hop, Option.some_inj] at hs
    have hb := drawLoop_bounds (deck.drop 7) (deck.take 7) 0 r (openingLands deck)
    have hlen : ((deck.drop 7).length : Int) = (deck.length : Int) - 7 := by
      simp [List.length_drop]
      omega
    rw [← hs]
    omega

theorem runSimulation_exhaustion_bound_witness :
    0 ≤ (Simulation.mk 2 false 2).drawsToWinCon ∧
      (Simulation.mk 2 false 2).drawsToWinCon ≤
        (([plainCard, landCard, comboCard, plainCard, landCard, plainCard, plainCard,
           plainCard, comboCard] : List Card).length : Int) - 7 :=
  runSimulation_exhaustion_bound
    [plainCard, landCard, comboCard, plainCard, landCard, plainCard, plainCard,
     plainCard, comboCard] 2 (Simulation.mk 2 false 2) (by decide) (by decide)

/-- C6: a deck of at least 7 cards holding strictly fewer combo pieces
than required (requirement at least 1) never wins: the trial draws the
whole library, returning `deck_size - 7` draws and no opening-hand win. -/
theorem runSimulation_never_winning (deck : List Card) (r : Int)
    (h7 : 7 ≤ deck.length) (h1 : 1 ≤ r) (hlt : (countCombo deck : Int) < r) :
    runSimulation deck r = some ⟨(deck.length : Int) - 7, false, openingLands deck⟩ := by
  have htake : countCombo (deck.take 7) ≤ countCombo deck := by
    conv_rhs => rw [← List.take_append_drop 7 deck]
    rw [countCombo_append]
    omega
  have hop : checkComboWin (deck.take 7) r = false := by
    apply checkComboWin_eq_false
    right
    omega
  rw [runSimulation, if_pos h7, if_neg (by simp [hop])]
  have hfull : checkComboWin (deck.take 7 ++ deck.drop 7) r = false := by
    apply checkComboWin_eq_false
    right
    rw [countCombo_take_drop]
    omega
  rw [drawLoop_exhaust (deck.drop 7) (deck.take 7) 0 r (openingLands deck) hfull]
  have hlen : ((deck.drop 7).length : Int) = (deck.length : Int) - 7 := by
    simp [List.length_drop]
    omega
  simp only [Option.some.injEq, Simulation.mk.injEq, eq_self_iff_true, and_true, true_and]
  omega

theorem runSimulation_never_winning_witness :
    runSimulation
      [comboCard, landCard, plainCard, plainCard, plainCard, plainCard, plainCard, plainCard] 2 =
      some ⟨1, false, 1⟩ := by
  have h := runSimulation_never_winning
    [comboCard, landCard, plainCard, plainCard, plainCard, plainCard, plainCard, plainCard] 2
    (by decide) (by decide) (by decide)
  rw [h]
  decide

/-- C9: `checkComboWin` with a required count of 0 returns false on every
hand, because its counter check `count == required` fires only after an
increment; consequently a trial run at requirement 0 never reports an
opening-hand win and always draws the entire library. -/
theorem checkComboWin_required_zero (deck hand : List Card) (h7 : 7 ≤ deck.length) :
    checkComboWin hand 0 = false ∧
    runSimulation deck 0 = some ⟨(deck.length : Int) - 7, false, openingLands deck⟩ := by
  have hall : ∀ h : List Card, checkComboWin h 0 = false := fun h =>
    checkComboWin_eq_false h 0 (Or.inl le_rfl)
  refine ⟨hall hand, ?_⟩
  rw [runSimulation, if_pos h7, if_neg (by simp [hall])]
  rw [drawLoop_exhaust (deck.drop 7) (deck.take 7) 0 0 (openingLands deck) (hall _)]
  have hlen : ((deck.drop 7).length : Int) = (deck.length : Int) - 7 := by
    simp [List.length_drop]
    omega
  simp only [Option.some.injEq, Simulation.mk.injEq, eq_self_iff_true, and_true, true_and]
  omega

theorem checkComboWin_required_zero_witness :
    checkComboWin [comboCard, comboCard] 0 = false ∧
    runSimulation
        [plainCard, landCard, comboCard, plainCard, landCard, plainCard, plainCard, plainCard,
         comboCard] 0 =
      some ⟨(([plainCard, landCard, comboCard, plainCard, landCard, plainCard, plainCard,
               plainCard, comboCard] : List Card).length : Int) - 7, false,
            openingLands
              [plainCard, landCard, comboCard, plainCard, landCard, plainCard, plainCard,
               plainCard, comboCard]⟩ :=
  checkComboWin_required_zero
    [plainCard, landCard, comboCard, plainCard, landCard, plainCard, plainCard, plainCard,
     comboCard] [comboCard, comboCard] (by decide)

/-- C1: for a fixed configuration (including the base seed) two
independent executions of the scenario produce identical `Results` —
identical attempt count, sums, opening-hand win count and derived means —
no matter in which order the per-trial results are aggregated (and hence
independently of worker-pool size, which only influences that order):
every arrival order is a permutation of the trial indices
`0 … trial_count - 1`, and aggregation is permutation-invariant because
each per-trial result is a pure function of the configuration and its
trial index. -/
theorem runScenario_deterministic (rng : Int → Nat → Nat) (cfg : Config)
    (order1 order2 : List Nat)
    (h1 : order1.Perm (List.range cfg.runs.toNat))
    (h2 : order2.Perm (List.range cfg.runs.toNat)) :
    runScenarioWith rng cfg order1 = runScenarioWith rng cfg order2 := by
  unfold runScenarioWith
  exact aggregate_perm _ _ ((h1.trans h2.symm).map (trialSim rng cfg))

theorem runScenario_deterministic_witness :
    runScenarioWith (fun _ _ => 0) ⟨10, 3, 2, 1, 2, 5⟩ [0, 1] =
      runScenarioWith (fun _ _ => 0) ⟨10, 3, 2, 1, 2, 5⟩ [1, 0] :=
  runScenario_deterministic (fun _ _ => 0) ⟨10, 3, 2, 1, 2, 5⟩ [0, 1] [1, 0]
    (by decide) (by decide)

/-- C2: for every valid configuration (non-negative land and combo
counts whose sum is at most the deck size) and every random stream, the
deck built by `createDeck` has length exactly `deck_size`, contains
exactly `land_count` lands, exactly `combo_piece_count` combo-marked
non-lands, and `deck_size - land_count - combo_piece_count` non-combo
non-lands, and no land is marked as a combo piece. -/
theorem createDeck_composition (cfg : Config) (js : Nat → Nat)
    (h0l : 0 ≤ cfg.lands) (h0c : 0 ≤ cfg.combos)
    (hsum : cfg.lands + cfg.combos ≤ cfg.deckSize) :
    ((createDeck cfg js).length : Int) = cfg.deckSize ∧
    (((createDeck cfg js).countP (fun c => c.keyword == "land") : Nat) : Int) = cfg.lands ∧
    (((createDeck cfg js).countP (fun c => c.keyword == "non-land" && c.combo) : Nat) : Int) =
      cfg.combos ∧
    (((createDeck cfg js).countP (fun c => c.keyword == "non-land" && !c.combo) : Nat) : Int) =
      cfg.deckSize - cfg.lands - cfg.combos ∧
    ((countCombo (createDeck cfg js) : Nat) : Int) = cfg.combos ∧
    ∀ c ∈ createDeck cfg js, c.keyword = "land" → c.combo = false := by
  have hp := createDeck_perm cfg js
  have hlnl : (("land" : String) == "non-land") = false := by decide
  have hnll : (("non-land" : String) == "land") = false := by decide
  refine ⟨createDeck_length cfg js h0l h0c hsum, ?_, ?_, ?_, ?_, ?_⟩
  · rw [hp.countP_eq]
    simp [List.countP_append, countP_replicate, landCard, plainCard, comboCard, hnll]
    omega
  · rw [hp.countP_eq]
    simp [List.countP_append, countP_replicate, landCard, plainCard, comboCard, hlnl]
    omega
  · rw [hp.countP_eq]
    simp [List.countP_append, countP_replicate, landCard, plainCard, comboCard, hlnl]
    omega
  · unfold countCombo
    rw [hp.countP_eq]
    simp [List.countP_append, countP_replicate, landCard, plainCard, comboCard]
    omega
  · intro c hc hl
    rw [hp.mem_iff] at hc
    rcases List.mem_append.mp hc with h | h
    · rcases List.mem_append.mp h with h | h
      · rw [List.eq_of_mem_replicate h]
        rfl
      · rw [List.eq_of_mem_replicate h]
        rfl
    · rw [List.eq_of_mem_replicate h] at hl ⊢
      exact absurd hl (by decide)

theorem createDeck_composition_witness :
    ((createDeck ⟨9, 3, 2, 1, 1, 0⟩ (fun _ => 0)).length : Int) = (9 : Int) ∧
    (((createDeck ⟨9, 3, 2, 1, 1, 0⟩ (fun _ => 0)).countP
        (fun c => c.keyword == "land") : Nat) : Int) = (3 : Int) ∧
    (((createDeck ⟨9, 3, 2, 1, 1, 0⟩ (fun _ => 0)).countP
        (fun c => c.keyword == "non-land" && c.combo) : Nat) : Int) = (2 : Int) ∧
    (((createDeck ⟨9, 3, 2, 1, 1, 0⟩ (fun _ => 0)).countP
        (fun c => c.keyword == "non-land" && !c.combo) : Nat) : Int) = (9 : Int) - 3 - 2 ∧
    ((countCombo (createDeck ⟨9, 3, 2, 1, 1, 0⟩ (fun _ => 0)) : Nat) : Int) = (2 : Int) ∧
    ∀ c ∈ createDeck ⟨9, 3, 2, 1, 1, 0⟩ (fun _ => 0), c.keyword = "land" → c.combo = false :=
  createDeck_composition ⟨9, 3, 2, 1, 1, 0⟩ (fun _ => 0) (by decide) (by decide) (by decide)

/-- C4: `validateConfig` reports an error precisely when one of the
enumerated conditions holds — deck size below 7, negative land count,
negative combo count, required count below 1, required count above the
combo count, lands plus combos above the deck size, or trial count below
1 — and accepts every other configuration. -/
theorem validateConfig_error_iff (cfg : Config) :
    (validateConfig cfg).isSome = true ↔
      (cfg.deckSize < 7 ∨ cfg.lands < 0 ∨ cfg.combos < 0 ∨ cfg.required < 1 ∨
       cfg.combos < cfg.required ∨ cfg.deckSize < cfg.lands + cfg.combos ∨ cfg.runs < 1) := by
  have h := validateConfig_none_iff cfg
  cases heq : validateConfig cfg with
  | none =>
    rw [heq] at h
    simp at h
    simp
    omega
  | some s =>
    rw [heq] at h
    simp at h
    simp
    omega

/-- C7: for a fixed deck of at least 7 cards and requirements
`1 ≤ rSmall ≤ r` with the deck holding at least `r` combo pieces, the
trial at requirement `r` wins exactly when the `r`-th combo piece enters
the hand — after 0 draws when its index lies in the opening hand, after
`comboIndex - 6` draws otherwise, never earlier — and lowering the
requirement to `rSmall` can only keep the draws-to-win equal or move it
earlier. -/
theorem runSimulation_monotone_requirement (deck : List Card) (r rSmall : Int)
    (h7 : 7 ≤ deck.length) (h1 : 1 ≤ rSmall) (hrr : rSmall ≤ r)
    (hw : r ≤ (countCombo deck : Int)) :
    ∃ s sSmall, runSimulation deck r = some s ∧
      runSimulation deck rSmall = some sSmall ∧
      sSmall.drawsToWinCon ≤ s.drawsToWinCon ∧
      s.drawsToWinCon =
        (if comboIndex deck r < 7 then 0 else (comboIndex deck r : Int) - 6) ∧
      sSmall.drawsToWinCon =
        (if comboIndex deck rSmall < 7 then 0 else (comboIndex deck rSmall : Int) - 6) := by
  have hchar := runSimulation_char deck r h7 (by omega) hw
  have hcharS := runSimulation_char deck rSmall h7 (by omega) (by omega)
  refine ⟨_, _, hchar, hcharS, ?_, rfl, rfl⟩
  have hmono := comboIndex_mono deck rSmall r (by omega) hrr
  show (if comboIndex deck rSmall < 7 then (0 : Int) else (comboIndex deck rSmall : Int) - 6) ≤
    (if comboIndex deck r < 7 then (0 : Int) else (comboIndex deck r : Int) - 6)
  split_ifs <;> push_cast <;> omega

theorem runSimulation_monotone_requirement_witness :
    ∃ s sSmall,
      runSimulation
          [plainCard, landCard, comboCard, plainCard, landCard, plainCard, plainCard, plainCard,
           comboCard] 2 = some s ∧
      runSimulation
          [plainCard, landCard, comboCard, plainCard, landCard, plainCard, plainCard, plainCard,
           comboCard] 1 = some sSmall ∧
      sSmall.drawsToWinCon ≤ s.drawsToWinCon ∧
      s.drawsToWinCon =
        (if comboIndex
            [plainCard, landCard, comboCard, plainCard, landCard, plainCard, plainCard, plainCard,
             comboCard] 2 < 7 then 0
         else (comboIndex
            [plainCard, landCard, comboCard, plainCard, landCard, plainCard, plainCard, plainCard,
             comboCard] 2 : Int) - 6) ∧
      sSmall.drawsToWinCon =
        (if comboIndex
            [plainCard, landCard, comboCard, plainCard, landCard, plainCard, plainCard, plainCard,
             comboCard] 1 < 7 then 0
         else (comboIndex
            [plainCard, landCard, comboCard, plainCard, landCard, plainCard, plainCard, plainCard,
             comboCard] 1 : Int) - 6) :=
  runSimulation_monotone_requirement
    [plainCard, landCard, comboCard, plainCard, landCard, plainCard, plainCard, plainCard,
     comboCard] 2 1 (by decide) (by decide) (by decide) (by decide)

/-- C8: `simSeed` is a pure function of the base seed and trial index —
equal inputs give equal derived seeds — and it equals the splitmix-style
mixing described by the spec: start from
`base_seed + trial_index + 0x9e3779b97f4a7c15` in wrap-around unsigned
64-bit arithmetic, then two xor-shift-multiply steps and a final
xor-shift (`specSimSeed`, written from the spec's wording). -/
theorem simSeed_splitmix (b b2 i i2 : Int) (hb : b = b2) (hi : i = i2) :
    simSeed b i = simSeed b2 i2 ∧ simSeed b i = specSimSeed b i := by
  subst hb
  subst hi
  exact ⟨rfl, simSeed_eq_specSimSeed b i⟩

theorem simSeed_splitmix_witness :
    simSeed 42 0 = simSeed 42 0 ∧ simSeed 42 0 = specSimSeed 42 0 :=
  simSeed_splitmix 42 42 0 0 rfl rfl

/-- C10: `runSimulation` succeeds (its out-of-range branch, embedded as
`none`, is unreachable) exactly when the deck has at least 7 cards; and
for every configuration accepted by `validateConfig`, the deck built by
`createDeck` satisfies this precondition, so the simulation step of the
scheduler is always safe. -/
theorem runSimulation_safety (cfg : Config) (js : Nat → Nat) (deck : List Card) (r : Int)
    (hvalid : validateConfig cfg = none) :
    ((runSimulation deck r).isSome = true ↔ 7 ≤ deck.length) ∧
    (runSimulation (createDeck cfg js) cfg.required).isSome = true := by
  have hiff : ∀ (d : List Card) (req : Int),
      (runSimulation d req).isSome = true ↔ 7 ≤ d.length := by
    intro d req
    rw [runSimulation]
    by_cases h : 7 ≤ d.length
    · rw [if_pos h]
      simp only [h, iff_true]
      split <;> simp
    · rw [if_neg h]
      simp [h]
  obtain ⟨hd, hl, hc, _, _, hsum, _⟩ := (validateConfig_none_iff cfg).mp hvalid
  refine ⟨hiff deck r, ?_⟩
  rw [hiff]
  have hlen := createDeck_length cfg js hl hc hsum
  omega

theorem runSimulation_safety_witness :
    ((runSimulation ([] : List Card) 1).isSome = true ↔ 7 ≤ ([] : List Card).length) ∧
    (runSimulation (createDeck ⟨9, 3, 2, 1, 1, 0⟩ (fun _ => 0))
        (Config.mk 9 3 2 1 1 0).required).isSome = true :=
  runSimulation_safety ⟨9, 3, 2, 1, 1, 0⟩ (fun _ => 0) [] 1 (by decide)
